import Mathlib

/-!
Shallow embedding of `abstract_soft_delete.py` (django-soft-delete).

A database table is a list of records; each record carries a primary key
`pk`, an opaque payload `data` standing for all other columns, and the
nullable timestamp column `deleted_at` added by the mixin.  Time is passed
explicitly as a natural number.  A query set is the pair of the filter it
would apply at execution time and the transient `deleted_item_pks`
attribute (`none` models the attribute being absent, as tested by
`hasattr`).  Exceptions raised by the two database primitives used inside
`soft_delete` (the pk capture and the bulk update) are modelled by an
explicit fault-injection record, and an operation's outcome carries the
propagated exception, if any, next to the final in-memory and database
states.
-/

/-- A row of a table using the soft-delete mixin: primary key, the rest of
the columns collapsed into one payload field, and the nullable
`deleted_at` timestamp (`none` = active). -/
structure Record where
  pk : Nat
  data : Nat
  deleted_at : Option Nat
deriving DecidableEq, Repr

/-- A table: the list of its rows. -/
abbrev DB := List Record

/-- An exception message. -/
abbrev Err := String

/-- A Python value passed as the `delete_permanently` argument: a bool, an
int or a string. -/
inductive PyVal where
  | pyBool : Bool → PyVal
  | pyInt : Int → PyVal
  | pyStr : String → PyVal
deriving DecidableEq, Repr

/-- Python truthiness of a `PyVal` (`bool(v)`). -/
def PyVal.truthy : PyVal → Bool
  | .pyBool b => b
  | .pyInt n => n != 0
  | .pyStr s => s != ""

/-- Python equality `v == True`.  `bool` is a subclass of `int` in Python,
so `True == 1` holds: for an int the comparison is numeric equality with 1;
a string never equals a bool. -/
def PyVal.eqTrue : PyVal → Bool
  | .pyBool b => b
  | .pyInt n => n == 1
  | .pyStr _ => false

/-- Model of `SoftDeleteQuerySet`: the filter the query set would apply when
executed, and the transient `deleted_item_pks` attribute (`none` when the
attribute was never assigned). -/
structure QuerySet where
  filter : Record → Bool
  deleted_item_pks : Option (List Nat)

/-- Executing a query set against the table: the rows it matches. -/
def QuerySet.run (qs : QuerySet) (db : DB) : List Record :=
  db.filter qs.filter

/-- Fault injection for the two database primitives used inside
`SoftDeleteQuerySet.soft_delete`: the pk capture
(`list(self.only("pk").values_list("pk", flat=True))`) and the bulk
`update(deleted_at=...)`.  `none` means the primitive succeeds. -/
structure Faults where
  captureFault : Option Err
  updateFault : Option Err
deriving DecidableEq, Repr

/-- No fault injected: both primitives succeed. -/
def noFaults : Faults := ⟨none, none⟩

/-- The first exception `soft_delete` runs into, in program order: the
capture runs before the update. -/
def Faults.firstFault (f : Faults) : Option Err :=
  match f.captureFault with
  | some e => some e
  | none => f.updateFault

/-- Outcome of a query-set level operation: the query set's final
in-memory state, the final table, and the exception propagated to the
caller (`none` on success). -/
structure SDOut where
  qs : QuerySet
  db : DB
  err : Option Err

/-- Model of `SoftDeleteQuerySet.soft_delete`: capture the pks of the matched rows
into `deleted_item_pks`, then bulk-update their `deleted_at` to `now`; on
an exception from either primitive, reset `deleted_item_pks` to the empty
list and re-raise that same exception (a failed single-statement update
leaves the table unchanged). -/
def softDeleteF (qs : QuerySet) (db : DB) (now : Nat) (f : Faults) : SDOut :=
  match f.captureFault with
  | some e => ⟨{ qs with deleted_item_pks := some [] }, db, some e⟩
  | none =>
    let pks := (db.filter qs.filter).map Record.pk
    match f.updateFault with
    | some e => ⟨{ qs with deleted_item_pks := some [] }, db, some e⟩
    | none =>
      ⟨{ qs with deleted_item_pks := some pks },
        db.map (fun r => if qs.filter r then { r with deleted_at := some now } else r),
        none⟩

/-- Model of `SoftDeleteQuerySet.restore(use_manager)`: when `deleted_item_pks` is
set and non-empty, bulk-update `deleted_at` to null on the rows of the
supplied manager's query set whose pk is in the captured list, then clear
the list; otherwise do nothing.  The manager is modelled by the filter its
`get_queryset` applies. -/
def QuerySet.restore (qs : QuerySet) (db : DB) (use_manager : Record → Bool) :
    QuerySet × DB :=
  match qs.deleted_item_pks with
  | none => (qs, db)
  | some pks =>
    if pks.isEmpty then (qs, db)
    else
      ({ qs with deleted_item_pks := some [] },
        db.map (fun r =>
          if use_manager r && pks.contains r.pk then { r with deleted_at := none } else r))

/-- Outcome of `SoftDeleteQuerySet.delete`: final query-set state, final
table, propagated exception, and whether the permanent-delete path
(`super().delete()`) was taken. -/
structure QDelOut where
  qs : QuerySet
  db : DB
  err : Option Err
  permanent : Bool

/-- Model of `SoftDeleteQuerySet.delete(delete_permanently=v)`: when
`v == True` (Python equality), delegate to the framework's real bulk
delete, which removes every matched row from the table; otherwise call
`soft_delete`. -/
def QuerySet.delete (qs : QuerySet) (db : DB) (now : Nat) (f : Faults) (v : PyVal) :
    QDelOut :=
  if v.eqTrue then
    ⟨qs, db.filter (fun r => !(qs.filter r)), none, true⟩
  else
    let o := softDeleteF qs db now f
    ⟨o.qs, o.db, o.err, false⟩

/-- The filter applied by `SoftDeleteManager.get_queryset`:
`deleted_at__isnull=True`. -/
def activeFilter (r : Record) : Bool :=
  r.deleted_at.isNone

/-- Model of `SoftDeleteManager.get_queryset()`: a fresh `SoftDeleteQuerySet`
filtered to the rows whose `deleted_at` is null; `deleted_item_pks` is not
set on it. -/
def SoftDeleteManager.get_queryset : QuerySet :=
  ⟨activeFilter, none⟩

/-- The rows returned by the `objects` manager (`SoftDeleteManager`). -/
def objectsView (db : DB) : List Record :=
  SoftDeleteManager.get_queryset.run db

/-- Model of `UserSoftDeleteManager.get_queryset()`: same filter, layered on the
user-model manager base. -/
def UserSoftDeleteManager.get_queryset : QuerySet :=
  ⟨activeFilter, none⟩

/-- The rows returned by the user-model manager variant. -/
def userObjectsView (db : DB) : List Record :=
  UserSoftDeleteManager.get_queryset.run db

/-- The rows returned by the `all_objects` manager (plain
`models.Manager`): everything. -/
def allObjectsView (db : DB) : List Record :=
  db

/-- The manager filter of `all_objects` (plain `models.Manager`): no
restriction. -/
def allObjectsManager : Record → Bool :=
  fun _ => true

/-- A query set produced by the plain framework manager (`all_objects`):
it only carries its filter — neither `soft_delete`, `restore` nor the
delete override exist on it, only the framework's own `delete`. -/
structure PlainQuerySet where
  filter : Record → Bool

/-- Model of `models.QuerySet.delete()`, the framework's real bulk delete: removes
every matched row from the table. -/
def PlainQuerySet.delete (q : PlainQuerySet) (db : DB) : DB :=
  db.filter (fun r => !(q.filter r))

/-- Model of `all_objects.all()`: the plain query set over every row. -/
def all_objects_all : PlainQuerySet :=
  ⟨fun _ => true⟩

/-- A record is soft-deleted exactly when `deleted_at` is non-null. -/
def isSoftDeleted (r : Record) : Bool :=
  r.deleted_at.isSome

/-- Model of `Model.save()` on an instance: update the row with the instance's pk
with all the instance's fields, inserting the row when no row has that
pk. -/
def save (r : Record) (db : DB) : DB :=
  if db.any (fun x => x.pk == r.pk) then
    db.map (fun x => if x.pk == r.pk then r else x)
  else
    db ++ [r]

/-- Model of `SoftDeleteModel.soft_delete()`: set the instance's `deleted_at` to
now and save. -/
def SoftDeleteModel.soft_delete (r : Record) (db : DB) (now : Nat) : Record × DB :=
  let r2 := { r with deleted_at := some now }
  (r2, save r2 db)

/-- Model of `SoftDeleteModel.restore()`: clear the instance's `deleted_at` and
save. -/
def SoftDeleteModel.restore (r : Record) (db : DB) : Record × DB :=
  let r2 := { r with deleted_at := none }
  (r2, save r2 db)

/-- Model of `SoftDeleteModel.delete(delete_permanently=v)`: when `v == True`
(Python equality), delegate to the framework's real instance delete, which
removes the row with the instance's pk; otherwise `soft_delete`.  Returns
the final table and whether the permanent path was taken. -/
def SoftDeleteModel.delete (r : Record) (db : DB) (now : Nat) (v : PyVal) : DB × Bool :=
  if v.eqTrue then
    (db.filter (fun x => x.pk != r.pk), true)
  else
    ((SoftDeleteModel.soft_delete r db now).2, false)

/- Concrete fixtures used by the witness theorems. -/

/-- Record A, active. -/
def recA : Record := ⟨1, 10, none⟩

/-- Record B, active. -/
def recB : Record := ⟨2, 20, none⟩

/-- Record C, active. -/
def recC : Record := ⟨3, 30, none⟩

/-- A three-row table of active records. -/
def db3 : DB := [recA, recB, recC]

/-- The `objects.all()` query set used in the witnesses. -/
def qsAll : QuerySet := SoftDeleteManager.get_queryset

/-- C2: `soft_delete()` first stores the pks of the rows currently matched
by the query set into `deleted_item_pks`, then performs one bulk update
that sets `deleted_at` of exactly the matched rows to the current time and
leaves every other row unchanged; no exception propagates. -/
theorem c2_soft_delete_captures_then_updates (qs : QuerySet) (db : DB) (now : Nat) :
    (softDeleteF qs db now noFaults).qs.deleted_item_pks
        = some ((db.filter qs.filter).map Record.pk) ∧
    (softDeleteF qs db now noFaults).db
        = db.map (fun r => if qs.filter r then { r with deleted_at := some now } else r) ∧
    (softDeleteF qs db now noFaults).err = none := by
  refine ⟨rfl, rfl, rfl⟩

/-- C3: when either primitive inside `soft_delete()` raises, the first
exception raised propagates to the caller unchanged and
`deleted_item_pks` is reset to the empty list. -/
theorem c3_soft_delete_failure_resets_and_reraises (qs : QuerySet) (db : DB)
    (now : Nat) (f : Faults) (e : Err) (h : f.firstFault = some e) :
    (softDeleteF qs db now f).err = some e ∧
    (softDeleteF qs db now f).qs.deleted_item_pks = some [] := by
  unfold Faults.firstFault at h
  unfold softDeleteF
  cases hc : f.captureFault with
  | some e1 =>
    simp [hc] at h
    subst h
    exact ⟨rfl, rfl⟩
  | none =>
    simp [hc] at h
    cases hu : f.updateFault with
    | some e2 =>
      rw [hu] at h
      cases h
      exact ⟨rfl, rfl⟩
    | none => rw [hu] at h; cases h

/-- Witness for C3: injecting a fault into the bulk update on a concrete
table propagates that very exception and empties the captured key list. -/
theorem c3_witness :
    Faults.firstFault ⟨none, some "boom"⟩ = some "boom" ∧
    ((softDeleteF qsAll db3 5 ⟨none, some "boom"⟩).err = some "boom" ∧
      (softDeleteF qsAll db3 5 ⟨none, some "boom"⟩).qs.deleted_item_pks = some []) :=
  ⟨rfl, c3_soft_delete_failure_resets_and_reraises qsAll db3 5 ⟨none, some "boom"⟩ "boom" rfl⟩

/-- A `restore` call does nothing when the captured key list is present but
empty. -/
theorem restore_of_empty_cache (qs : QuerySet) (db : DB) (mgr : Record → Bool)
    (l : List Nat) (hc : qs.deleted_item_pks = some l) (he : l.isEmpty = true) :
    qs.restore db mgr = (qs, db) := by
  unfold QuerySet.restore
  rw [hc]
  simp [he]

/-- After a `restore` on a query set whose captured key list is present,
the captured key list is present and empty. -/
theorem restore_cache_after (qs : QuerySet) (db : DB) (mgr : Record → Bool)
    (l : List Nat) (hc : qs.deleted_item_pks = some l) :
    ∃ l2 : List Nat,
      ((qs.restore db mgr).1).deleted_item_pks = some l2 ∧ l2.isEmpty = true := by
  unfold QuerySet.restore
  rw [hc]
  by_cases he : l.isEmpty
  · exact ⟨l, by simp [he, hc], he⟩
  · exact ⟨[], by simp [he], rfl⟩

/-- C8: after `soft_delete()` and one `restore(use_manager)` call, a
second `restore` call on the same query-set object changes neither the
query set nor the table, because the captured key cache is empty. -/
theorem c8_second_restore_is_noop (qs : QuerySet) (db : DB) (now : Nat)
    (mgr mgr2 : Record → Bool) :
    QuerySet.restore
        ((softDeleteF qs db now noFaults).qs.restore (softDeleteF qs db now noFaults).db mgr).1
        ((softDeleteF qs db now noFaults).qs.restore (softDeleteF qs db now noFaults).db mgr).2
        mgr2
      = ((softDeleteF qs db now noFaults).qs.restore (softDeleteF qs db now noFaults).db mgr) := by
  obtain ⟨l2, hl2, he2⟩ := restore_cache_after (softDeleteF qs db now noFaults).qs
    (softDeleteF qs db now noFaults).db mgr ((db.filter qs.filter).map Record.pk) rfl
  exact restore_of_empty_cache _ _ mgr2 l2 hl2 he2

/-- C10: instance-level `soft_delete()` and `restore()` assign only the
`deleted_at` attribute of the in-memory instance before saving; the pk and
every other field are unchanged. -/
theorem c10_instance_ops_frame (r : Record) (db : DB) (now : Nat) :
    (SoftDeleteModel.soft_delete r db now).1.pk = r.pk ∧
    (SoftDeleteModel.soft_delete r db now).1.data = r.data ∧
    (SoftDeleteModel.soft_delete r db now).1.deleted_at = some now ∧
    (SoftDeleteModel.restore r db).1.pk = r.pk ∧
    (SoftDeleteModel.restore r db).1.data = r.data ∧
    (SoftDeleteModel.restore r db).1.deleted_at = none := by
  exact ⟨rfl, rfl, rfl, rfl, rfl, rfl⟩

/-- The three-row table after a bulk soft delete at time 5. -/
def db3del : DB := [⟨1, 10, some 5⟩, ⟨2, 20, some 5⟩, ⟨3, 30, some 5⟩]

/-- A query set carrying the captured keys of the three soft-deleted
rows. -/
def qsCached : QuerySet := ⟨activeFilter, some [1, 2, 3]⟩

/-- C1 evaluation at the failing input: the Python int `1` is truthy and
is not the boolean `True`, yet `delete(delete_permanently=1)` takes the
permanent-delete path on both the query set and the model instance,
because Python evaluates `1 == True` to `True`: the matched rows are
removed from the table instead of being soft-deleted. -/
theorem c1_delete_with_int_one_is_permanent :
    PyVal.truthy (PyVal.pyInt 1) = true ∧
    PyVal.pyInt 1 ≠ PyVal.pyBool true ∧
    PyVal.eqTrue (PyVal.pyInt 1) = true ∧
    (QuerySet.delete qsAll db3 5 noFaults (PyVal.pyInt 1)).permanent = true ∧
    (QuerySet.delete qsAll db3 5 noFaults (PyVal.pyInt 1)).db = [] ∧
    (SoftDeleteModel.delete recA db3 5 (PyVal.pyInt 1)).2 = true ∧
    (SoftDeleteModel.delete recA db3 5 (PyVal.pyInt 1)).1 = [recB, recC] := by
  refine ⟨rfl, by decide, rfl, rfl, by decide, rfl, by decide⟩

/-- C4: on a query set whose captured key list is set and non-empty,
`restore` applied with the unfiltered `all_objects` manager clears
`deleted_at` on exactly the rows whose pk is in the captured list, leaves
every other row unchanged, and empties the captured list; when the
attribute is absent, or present but empty, `restore` changes nothing for
any manager. -/
theorem c4_restore_targets_captured_pks (qs : QuerySet) (db : DB) :
    (∀ pks : List Nat, qs.deleted_item_pks = some pks → pks ≠ [] →
      (qs.restore db allObjectsManager).1.deleted_item_pks = some [] ∧
      (qs.restore db allObjectsManager).2
        = db.map (fun r =>
            if pks.contains r.pk then { r with deleted_at := none } else r)) ∧
    (qs.deleted_item_pks = none → ∀ mgr, qs.restore db mgr = (qs, db)) ∧
    (qs.deleted_item_pks = some [] → ∀ mgr, qs.restore db mgr = (qs, db)) := by
  refine ⟨?_, ?_, ?_⟩
  · intro pks hc hne
    have he : pks.isEmpty = false := by
      cases pks with
      | nil => exact absurd rfl hne
      | cons a l => rfl
    unfold QuerySet.restore
    rw [hc]
    simp [he, allObjectsManager]
  · intro hc mgr
    unfold QuerySet.restore
    rw [hc]
  · intro hc mgr
    unfold QuerySet.restore
    rw [hc]
    simp

/-- Witness for C4: on a concrete table of three soft-deleted rows and the
captured keys `[1, 2, 3]`, `restore` with the unfiltered manager clears
all three timestamps and empties the cache; on a fresh query set it is a
no-op. -/
theorem c4_witness :
    ((qsCached.restore db3del allObjectsManager).1.deleted_item_pks = some [] ∧
      (qsCached.restore db3del allObjectsManager).2
        = db3del.map (fun r =>
            if [1, 2, 3].contains r.pk then { r with deleted_at := none } else r)) ∧
    qsAll.restore db3del allObjectsManager = (qsAll, db3del) :=
  ⟨(c4_restore_targets_captured_pks qsCached db3del).1 [1, 2, 3] rfl (by decide),
    (c4_restore_targets_captured_pks qsAll db3del).2.1 rfl allObjectsManager⟩

/-- C5: with `delete_permanently` a value equal to `True`, both the
query-set `delete` and the instance `delete` take the framework's real
delete path: every matched row (resp. the row with the instance's pk) is
gone from the table, so it appears in neither the `objects` nor the
`all_objects` results. -/
theorem c5_permanent_delete_removes_rows (qs : QuerySet) (db : DB) (now : Nat)
    (f : Faults) (v : PyVal) (hv : v.eqTrue = true) (r inst : Record) :
    (QuerySet.delete qs db now f v).permanent = true ∧
    (qs.filter r = true →
      r ∉ allObjectsView (QuerySet.delete qs db now f v).db ∧
      r ∉ objectsView (QuerySet.delete qs db now f v).db) ∧
    (SoftDeleteModel.delete inst db now v).2 = true ∧
    (∀ x ∈ allObjectsView (SoftDeleteModel.delete inst db now v).1, x.pk ≠ inst.pk) ∧
    (∀ x ∈ objectsView (SoftDeleteModel.delete inst db now v).1, x.pk ≠ inst.pk) := by
  have hq : QuerySet.delete qs db now f v
      = ⟨qs, db.filter (fun r => !(qs.filter r)), none, true⟩ := by
    unfold QuerySet.delete
    simp [hv]
  have hi : SoftDeleteModel.delete inst db now v
      = (db.filter (fun x => x.pk != inst.pk), true) := by
    unfold SoftDeleteModel.delete
    simp [hv]
  rw [hq, hi]
  refine ⟨rfl, ?_, rfl, ?_, ?_⟩
  · intro hr
    constructor
    · intro hmem
      simp [allObjectsView, List.mem_filter, hr] at hmem
    · intro hmem
      simp [objectsView, QuerySet.run, SoftDeleteManager.get_queryset,
        List.mem_filter, hr] at hmem
  · intro x hx
    simp [allObjectsView, List.mem_filter] at hx
    exact hx.2
  · intro x hx
    simp [objectsView, QuerySet.run, SoftDeleteManager.get_queryset,
      List.mem_filter] at hx
    exact hx.2.2

/-- Witness for C5: permanently deleting the three active rows through
`objects.all().delete(delete_permanently=True)` leaves record A in neither
manager's results, and the instance-level call takes the permanent path. -/
theorem c5_witness :
    PyVal.eqTrue (PyVal.pyBool true) = true ∧
    qsAll.filter recA = true ∧
    (recA ∉ allObjectsView (QuerySet.delete qsAll db3 5 noFaults (PyVal.pyBool true)).db ∧
      recA ∉ objectsView (QuerySet.delete qsAll db3 5 noFaults (PyVal.pyBool true)).db) ∧
    (SoftDeleteModel.delete recA db3 5 (PyVal.pyBool true)).2 = true :=
  ⟨rfl, rfl,
    (c5_permanent_delete_removes_rows qsAll db3 5 noFaults (PyVal.pyBool true)
      rfl recA recA).2.1 rfl,
    (c5_permanent_delete_removes_rows qsAll db3 5 noFaults (PyVal.pyBool true)
      rfl recA recA).2.2.1⟩

/-- C9: a query set obtained through `all_objects` is a plain framework
query set (carrying none of the soft-delete operations), so its `delete()`
is the framework's hard delete: every matched row is gone from both the
`all_objects` and the `objects` results, and `all_objects.all().delete()`
empties the table. -/
theorem c9_all_objects_queryset_delete_is_hard (q : PlainQuerySet) (db : DB)
    (r : Record) (hr : q.filter r = true) :
    r ∉ allObjectsView (q.delete db) ∧
    r ∉ objectsView (q.delete db) ∧
    all_objects_all.delete db = [] := by
  refine ⟨?_, ?_, ?_⟩
  · intro hmem
    simp [allObjectsView, PlainQuerySet.delete, List.mem_filter, hr] at hmem
  · intro hmem
    simp [objectsView, QuerySet.run, SoftDeleteManager.get_queryset,
      PlainQuerySet.delete, List.mem_filter, hr] at hmem
  · simp [PlainQuerySet.delete, all_objects_all]

/-- Witness for C9: deleting through the `all_objects` query set on the
concrete three-row table removes record A from both views and empties the
table. -/
theorem c9_witness :
    all_objects_all.filter recA = true ∧
    (recA ∉ allObjectsView (all_objects_all.delete db3) ∧
      recA ∉ objectsView (all_objects_all.delete db3) ∧
      all_objects_all.delete db3 = []) :=
  ⟨rfl, c9_all_objects_queryset_delete_is_hard all_objects_all db3 recA rfl⟩

/-- The instance saved by `Model.save()` is in the resulting table,
whether the save updated an existing row or inserted a new one. -/
theorem mem_save (r2 : Record) (db : DB) : r2 ∈ save r2 db := by
  unfold save
  by_cases h : db.any (fun x => x.pk == r2.pk)
  · rw [if_pos h]
    rw [List.any_eq_true] at h
    obtain ⟨x, hx, hpk⟩ := h
    rw [List.mem_map]
    exact ⟨x, hx, by simp [hpk]⟩
  · rw [if_neg h]
    simp

/-- C6: a record's soft-deleted state is exactly the non-nullity of
`deleted_at`; both filtered managers return exactly the rows whose
`deleted_at` is null, `all_objects` returns every row, and immediately
after a non-permanent `delete()` the instance (with its now non-null
`deleted_at`) is absent from the `objects` and user-manager results while
present in the `all_objects` results. -/
theorem c6_deleted_at_determines_visibility (db : DB) (r : Record) (now : Nat)
    (v : PyVal) (hv : v.eqTrue = false) :
    (∀ x : Record, isSoftDeleted x = false ↔ x.deleted_at = none) ∧
    (∀ (d : DB) (x : Record), x ∈ objectsView d ↔ x ∈ d ∧ x.deleted_at = none) ∧
    (∀ (d : DB) (x : Record), x ∈ userObjectsView d ↔ x ∈ d ∧ x.deleted_at = none) ∧
    (∀ d : DB, allObjectsView d = d) ∧
    isSoftDeleted { r with deleted_at := some now } = true ∧
    { r with deleted_at := some now } ∉ objectsView (SoftDeleteModel.delete r db now v).1 ∧
    { r with deleted_at := some now } ∉ userObjectsView (SoftDeleteModel.delete r db now v).1 ∧
    { r with deleted_at := some now } ∈ allObjectsView (SoftDeleteModel.delete r db now v).1 := by
  have hobj : ∀ (d : DB) (x : Record), x ∈ objectsView d ↔ x ∈ d ∧ x.deleted_at = none := by
    intro d x
    simp [objectsView, QuerySet.run, SoftDeleteManager.get_queryset,
      List.mem_filter, activeFilter, Option.isNone_iff_eq_none]
  have huser : ∀ (d : DB) (x : Record), x ∈ userObjectsView d ↔ x ∈ d ∧ x.deleted_at = none := by
    intro d x
    simp [userObjectsView, QuerySet.run, UserSoftDeleteManager.get_queryset,
      List.mem_filter, activeFilter, Option.isNone_iff_eq_none]
  have hd : (SoftDeleteModel.delete r db now v).1
      = save { r with deleted_at := some now } db := by
    unfold SoftDeleteModel.delete SoftDeleteModel.soft_delete
    simp [hv]
  refine ⟨?_, hobj, huser, fun d => rfl, rfl, ?_, ?_, ?_⟩
  · intro x
    cases hx : x.deleted_at <;> simp [isSoftDeleted, hx]
  · intro hmem
    have := (hobj _ _).mp hmem
    simp at this
  · intro hmem
    have := (huser _ _).mp hmem
    simp at this
  · rw [hd]
    exact mem_save { r with deleted_at := some now } db

/-- Witness for C6: deleting record A non-permanently (flag `False`) on
the concrete three-row table makes it invisible to the filtered managers
and still visible to `all_objects`. -/
theorem c6_witness :
    PyVal.eqTrue (PyVal.pyBool false) = false ∧
    ((∀ x : Record, isSoftDeleted x = false ↔ x.deleted_at = none) ∧
      (∀ (d : DB) (x : Record), x ∈ objectsView d ↔ x ∈ d ∧ x.deleted_at = none) ∧
      (∀ (d : DB) (x : Record), x ∈ userObjectsView d ↔ x ∈ d ∧ x.deleted_at = none) ∧
      (∀ d : DB, allObjectsView d = d) ∧
      isSoftDeleted { recA with deleted_at := some 5 } = true ∧
      { recA with deleted_at := some 5 }
          ∉ objectsView (SoftDeleteModel.delete recA db3 5 (PyVal.pyBool false)).1 ∧
      { recA with deleted_at := some 5 }
          ∉ userObjectsView (SoftDeleteModel.delete recA db3 5 (PyVal.pyBool false)).1 ∧
      { recA with deleted_at := some 5 }
          ∈ allObjectsView (SoftDeleteModel.delete recA db3 5 (PyVal.pyBool false)).1) :=
  ⟨rfl, c6_deleted_at_determines_visibility db3 recA 5 (PyVal.pyBool false) rfl⟩

/-- The spec scenario's first step: `objects.all().delete()` with the
default flag, over the table `db` at time `now`. -/
def scenarioDelete (db : DB) (now : Nat) : QDelOut :=
  QuerySet.delete SoftDeleteManager.get_queryset db now noFaults (PyVal.pyBool false)

/-- The spec scenario's second step: `restore(all_objects)` on the same
query-set object, over the table left by the first step. -/
def scenarioRestore (db : DB) (now : Nat) : QuerySet × DB :=
  (scenarioDelete db now).qs.restore (scenarioDelete db now).db allObjectsManager

/-- C7: starting from a table of active records, `objects.all().delete()`
gives every record a non-null `deleted_at`, after which `objects` counts
zero and `all_objects` counts them all; `restore(all_objects)` on that
same query-set object then clears `deleted_at` on those records, the table
is back to its original contents and `objects` counts them all again. -/
theorem c7_soft_delete_then_restore_round_trip (db : DB) (now : Nat)
    (h : ∀ r ∈ db, r.deleted_at = none) :
    (∀ r ∈ (scenarioDelete db now).db, r.deleted_at = some now) ∧
    (objectsView (scenarioDelete db now).db).length = 0 ∧
    (allObjectsView (scenarioDelete db now).db).length = db.length ∧
    (∀ r ∈ (scenarioRestore db now).2, r.deleted_at = none) ∧
    (scenarioRestore db now).2 = db ∧
    (objectsView (scenarioRestore db now).2).length = db.length := by
  have hact : ∀ r ∈ db, activeFilter r = true := by
    intro r hr
    simp [activeFilter, h r hr]
  have hfil : db.filter activeFilter = db := List.filter_eq_self.mpr hact
  have hdel : scenarioDelete db now
      = ⟨⟨activeFilter, some ((db.filter activeFilter).map Record.pk)⟩,
          db.map (fun r =>
            if activeFilter r then { r with deleted_at := some now } else r),
          none, false⟩ := by
    unfold scenarioDelete QuerySet.delete softDeleteF noFaults
      SoftDeleteManager.get_queryset
    simp [PyVal.eqTrue]
  have hdb1 : (scenarioDelete db now).db
      = db.map (fun r => { r with deleted_at := some now }) := by
    rw [hdel]
    exact List.map_congr_left (fun r hr => by rw [if_pos (hact r hr)])
  have hall : ∀ r ∈ (scenarioDelete db now).db, r.deleted_at = some now := by
    intro r hr
    rw [hdb1] at hr
    obtain ⟨s, _, hs⟩ := List.mem_map.mp hr
    rw [← hs]
  have hback : (scenarioRestore db now).2 = db := by
    unfold scenarioRestore
    rw [hdel]
    unfold QuerySet.restore
    simp only
    cases hdb : db with
    | nil => simp
    | cons a l =>
      have hne : (((db.filter activeFilter).map Record.pk)).isEmpty = false := by
        rw [hfil, hdb]
        rfl
      rw [← hdb, hfil]
      rw [hfil] at hne
      simp only [hne, Bool.false_eq_true, if_false]
      have hstep : ∀ r ∈ db.map (fun r =>
          if activeFilter r then { r with deleted_at := some now } else r),
          (if allObjectsManager r && (db.map Record.pk).contains r.pk
            then { r with deleted_at := none } else r)
          = { r with deleted_at := none } := by
        intro r hr
        obtain ⟨s, hs, hsr⟩ := List.mem_map.mp hr
        have hpk : r.pk = s.pk := by
          rw [← hsr, if_pos (hact s hs)]
        have hmem : r.pk ∈ db.map Record.pk := by
          rw [hpk]
          exact List.mem_map.mpr ⟨s, hs, rfl⟩
        have hcont : (db.map Record.pk).contains r.pk = true := List.elem_iff.mpr hmem
        rw [if_pos (by simp only [allObjectsManager, Bool.true_and, hcont])]
      rw [List.map_congr_left hstep]
      rw [List.map_map]
      have hid : ∀ r ∈ db,
          ((fun r => { r with deleted_at := none }) ∘ fun r =>
            if activeFilter r then { r with deleted_at := some now } else r) r = r := by
        intro r hr
        obtain ⟨pk, d, da⟩ := r
        have : da = none := h _ hr
        subst this
        simp [activeFilter]
      calc db.map _ = db.map id := List.map_congr_left hid
        _ = db := List.map_id db
  refine ⟨hall, ?_, ?_, ?_, hback, ?_⟩
  · rw [objectsView, QuerySet.run]
    have : (scenarioDelete db now).db.filter SoftDeleteManager.get_queryset.filter = [] := by
      rw [List.filter_eq_nil_iff]
      intro r hr
      simp [SoftDeleteManager.get_queryset, activeFilter, hall r hr]
    rw [this]
    rfl
  · rw [allObjectsView, hdb1, List.length_map]
  · intro r hr
    rw [hback] at hr
    exact h r hr
  · rw [hback, objectsView, QuerySet.run]
    have : db.filter SoftDeleteManager.get_queryset.filter = db := by
      rw [List.filter_eq_self]
      intro r hr
      simp [SoftDeleteManager.get_queryset, activeFilter, h r hr]
    rw [this]

/-- Witness for C7: the scenario on the concrete table of records A, B, C
at time 5: all three get timestamped, counts drop to 0 and stay 3 under
`all_objects`, and the restore brings the table back to its original
contents. -/
theorem c7_witness :
    (∀ r ∈ db3, r.deleted_at = none) ∧
    ((∀ r ∈ (scenarioDelete db3 5).db, r.deleted_at = some 5) ∧
      (objectsView (scenarioDelete db3 5).db).length = 0 ∧
      (allObjectsView (scenarioDelete db3 5).db).length = db3.length ∧
      (∀ r ∈ (scenarioRestore db3 5).2, r.deleted_at = none) ∧
      (scenarioRestore db3 5).2 = db3 ∧
      (objectsView (scenarioRestore db3 5).2).length = db3.length) :=
  ⟨by decide, c7_soft_delete_then_restore_round_trip db3 5 (by decide)⟩
